import Mathlib

/-!
Verification development for the Frogwatch client subsystem: recording
lifecycle and review workflow, role resolution, confidence reconciliation,
geocode memoization, predictor failover, and the map-view filter engine.
Each definition is a shallow embedding of a function from the TypeScript
source; numeric confidences are modelled as rationals, firestore string
fields as String, and optional document fields as Option.
-/

/-- Canonical role values of the system. -/
inductive Role
  | volunteer
  | expert
  | admin
deriving Repr, DecidableEq

/-- Raw user document fields relevant to role resolution: the explicit
role string and the legacy boolean flags, each possibly absent. -/
structure UserRecord where
  role : Option String
  isAdmin : Option Bool
  isExpert : Option Bool
deriving Repr, DecidableEq

/-- ASCII lowercasing, the effect of String.prototype.toLowerCase on the
role strings this program stores; written over the character list so that
it evaluates inside the kernel. -/
def lowerString (s : String) : String :=
  String.mk (s.data.map Char.toLower)

/-- Lower-cased role string, empty when the field is absent; embeds the
expression (userData.role or empty).toString().toLowerCase() used by
handleLogin in login.tsx and loadUsers in usersScreen.tsx. -/
def roleLower (u : UserRecord) : String :=
  lowerString (u.role.getD "")

/-- Role resolution as performed by handleLogin in login.tsx lines 51-62:
isAdmin is the disjunction of the legacy flag and the role string test,
likewise isExpert, and the admin test is consulted first. -/
def resolveRole (u : UserRecord) : Role :=
  let userRole := roleLower u
  let isAdmin := u.isAdmin == some true || userRole == "admin"
  let isExpert := u.isExpert == some true || userRole == "expert"
  if isAdmin then Role.admin
  else if isExpert then Role.expert
  else Role.volunteer

/-- Admin test used by loadUsers in usersScreen.tsx lines 169-174 to skip
admin users from the moderation listing. -/
def loadUsersIsAdmin (u : UserRecord) : Bool :=
  u.isAdmin == some true || roleLower u == "admin"

/-- Non-admin filter of loadUsers: keeps exactly the user documents whose
admin test is false. -/
def loadUsersNonAdmin (users : List UserRecord) : List UserRecord :=
  users.filter (fun u => !(loadUsersIsAdmin u))

/-- Confidence normalization from predictionScreen.tsx lines 56-58:
values at most 1 are treated as fractions and scaled by 100, larger
values are returned unchanged. -/
def toPercent (confMaybe01 : ℚ) : ℚ :=
  if confMaybe01 ≤ 1 then confMaybe01 * 100 else confMaybe01

/-- Claim C4 as stated is false: normalization is not idempotent on all
of [0,100]; at x = 1/200 one application yields 1/2 and a second
application scales again to 50. -/
theorem toPercent_not_idempotent_at_small :
    (0 : ℚ) ≤ 1/200 ∧ (1/200 : ℚ) ≤ 100 ∧
    toPercent (toPercent (1/200)) ≠ toPercent (1/200) := by
  refine ⟨by norm_num, by norm_num, ?_⟩
  show toPercent (toPercent (1/200)) ≠ toPercent (1/200)
  norm_num [toPercent]

/-- Claim C4 amended: normalization is idempotent on [0,100] away from
the ambiguous band (0, 1/100]; for x = 0 or x above 1/100 a second
application of toPercent changes nothing. -/
theorem toPercent_idempotent (x : ℚ) (h0 : 0 ≤ x) (h100 : x ≤ 100)
    (h : x = 0 ∨ 1/100 < x) :
    toPercent (toPercent x) = toPercent x := by
  rcases h with h | h
  · subst h
    norm_num [toPercent]
  · by_cases hx : x ≤ 1
    · have h1 : ¬ (x * 100 ≤ 1) := by linarith
      simp [toPercent, hx, h1]
    · simp [toPercent, hx]

/-- Witness for the amended C4 theorem at x = 1/2. -/
theorem toPercent_idempotent_witness :
    toPercent (toPercent (1/2)) = toPercent (1/2) :=
  toPercent_idempotent (1/2) (by norm_num) (by norm_num) (Or.inr (by norm_num))

/-- Claim C1 as stated is false: the resolution in handleLogin gives the
legacy boolean flags precedence over a disagreeing explicit role string.
A user document with role "volunteer" and isAdmin true resolves to admin,
and one with role "volunteer" and isExpert true resolves to expert; such
users are also dropped from the loadUsers moderation listing. -/
theorem resolveRole_flags_override_enum :
    resolveRole ⟨some "volunteer", some true, some false⟩ = Role.admin ∧
    resolveRole ⟨some "volunteer", some false, some true⟩ = Role.expert ∧
    Role.admin ≠ Role.volunteer ∧ Role.expert ≠ Role.volunteer ∧
    loadUsersNonAdmin [⟨some "volunteer", some true, some false⟩] = [] := by
  refine ⟨?_, ?_, by decide, by decide, ?_⟩ <;> decide

/-- Claim C1 amended: when legacy flags and the explicit role disagree, a
true legacy flag takes precedence (isAdmin true forces admin; otherwise
isExpert true forces expert unless the role string says admin); the
explicit role string decides only when neither legacy flag is true. -/
theorem resolveRole_precedence (u : UserRecord) :
    (u.isAdmin = some true → resolveRole u = Role.admin) ∧
    (u.isAdmin ≠ some true → roleLower u ≠ "admin" → u.isExpert = some true →
      resolveRole u = Role.expert) ∧
    (u.isAdmin ≠ some true → u.isExpert ≠ some true →
      resolveRole u =
        (if roleLower u = "admin" then Role.admin
         else if roleLower u = "expert" then Role.expert
         else Role.volunteer)) := by
  refine ⟨?_, ?_, ?_⟩
  · intro h
    simp [resolveRole, h]
  · intro h1 h2 h3
    simp only [resolveRole, h3]
    have ha : (u.isAdmin == some true) = false := by
      cases hu : u.isAdmin with
      | none => rfl
      | some b => cases b <;> simp_all
    have hr : (roleLower u == "admin") = false := by
      simpa [beq_iff_eq] using h2
    simp [ha, hr]
  · intro h1 h2
    have ha : (u.isAdmin == some true) = false := by
      cases hu : u.isAdmin with
      | none => rfl
      | some b => cases b <;> simp_all
    have he : (u.isExpert == some true) = false := by
      cases hu : u.isExpert with
      | none => rfl
      | some b => cases b <;> simp_all
    by_cases hadm : roleLower u = "admin"
    · simp [resolveRole, ha, he, hadm]
    · by_cases hexp : roleLower u = "expert"
      · simp [resolveRole, ha, he, hadm, hexp]
      · simp [resolveRole, ha, he, hadm, hexp]

/-- Witness for the amended C1 theorem: a document with isAdmin true and
role string volunteer resolves to admin. -/
theorem resolveRole_precedence_witness :
    resolveRole ⟨some "volunteer", some true, some false⟩ = Role.admin :=
  (resolveRole_precedence ⟨some "volunteer", some true, some false⟩).1 rfl

/-- One entry of the append-only history log of a recording. -/
structure HistoryEntry where
  action : String
  actorId : String
  timestamp : String
deriving Repr, DecidableEq

/-- The synthetic expert review block attached by a self-approved
submission: species, numeric confidence, and the reviewer uid. -/
structure ExpertReview where
  species : String
  confidence : ℚ
  reviewerUid : String
deriving Repr, DecidableEq

/-- A stored recording document, restricted to the fields the claims
touch: identifiers, species fields, notes, status, the numeric
confidence score, the volunteer confidence level, the history log and
the optional expert review block. -/
structure RecordingDoc where
  recordingId : String
  userId : String
  predictedSpecies : String
  species : String
  notes : String
  status : String
  confidenceScore : Option ℚ
  volunteerConfidenceLevel : String
  history : List HistoryEntry
  expertReview : Option ExpertReview
deriving Repr, DecidableEq

/-- Inputs of a submission in predictionScreen.tsx handleSubmit: the
fresh document id, the submitter uid, the predicted species, notes, the
selected volunteer confidence level, the iso timestamp, the primary AI
confidence in [0,1], the role string fetched for the signed-in user, and
the submit-as-expert checkbox. -/
structure SubmitInput where
  recordingId : String
  uid : String
  predictedSpecies : String
  notes : String
  volunteerConfidence : String
  nowIso : String
  primaryConf01 : ℚ
  role : Option String
  submitAsExpert : Bool
deriving Repr, DecidableEq

/-- Document created by the single setDoc call of handleSubmit
(predictionScreen.tsx lines 353-414): the base document carries one
submitted history entry and no review; when the submit-as-expert option
is on and the role string is expert or admin, the document is created
with status approved and a synthetic expert review whose reviewer uid is
the submitter uid, otherwise with status needs_review. -/
def handleSubmitCreate (inp : SubmitInput) : RecordingDoc :=
  let isExpert := inp.role == some "expert" || inp.role == some "admin"
  let base : RecordingDoc :=
    { recordingId := inp.recordingId
      userId := inp.uid
      predictedSpecies := inp.predictedSpecies
      species := ""
      notes := inp.notes
      status := "needs_review"
      confidenceScore := some inp.primaryConf01
      volunteerConfidenceLevel := inp.volunteerConfidence
      history := [⟨"submitted", inp.uid, inp.nowIso⟩]
      expertReview := none }
  if inp.submitAsExpert && isExpert then
    { base with
      status := "approved"
      expertReview := some ⟨inp.predictedSpecies, inp.primaryConf01, inp.uid⟩ }
  else
    base

/-- Edit-and-resubmit from the history screen, predictionScreen.tsx
lines 1518-1574: a non-empty confidence outside 0..100 is rejected
before any write (result none); otherwise one updateDoc overwrites
species, predictedSpecies, notes, sets status to needs review, and
stores the entered confidence divided by 100 when one was entered. The
update payload touches no other field. The edited confidence is the
parseInt result of the text input, none when the field is empty. -/
def handleResubmit (d : RecordingDoc) (editSpecies editNotes : String)
    (editConfidence : Option ℤ) : Option RecordingDoc :=
  match editConfidence with
  | some n =>
    if n < 0 ∨ n > 100 then
      none
    else
      some { d with
        species := editSpecies
        predictedSpecies := editSpecies
        notes := editNotes
        status := "needs_review"
        confidenceScore := some ((n : ℚ) / 100) }
  | none =>
    some { d with
      species := editSpecies
      predictedSpecies := editSpecies
      notes := editNotes
      status := "needs_review" }

/-- Save-edits from the map view, register.tsx lines 663-700: one
updateDoc writes species and notes, plus confidenceScore divided by 100
when the parsed confidence is a number within 0..100; every other field
of the document, status included, is left untouched. The confidence
argument is the parseFloat result of the text input, none when it is not
a number. -/
def handleSaveEdits (d : RecordingDoc) (editSpecies editNotes : String)
    (editConfidence : Option ℚ) : RecordingDoc :=
  match editConfidence with
  | some c =>
    if 0 ≤ c ∧ c ≤ 100 then
      { d with
        species := editSpecies
        notes := editNotes
        confidenceScore := some (c / 100) }
    else
      { d with species := editSpecies, notes := editNotes }
  | none =>
    { d with species := editSpecies, notes := editNotes }

/-- A concrete approved recording with one history entry and an expert
review block, used to exercise the resubmit path. -/
def approvedDoc : RecordingDoc :=
  { recordingId := "r1"
    userId := "owner1"
    predictedSpecies := "Bullfrog"
    species := "Bullfrog"
    notes := "first pass"
    status := "approved"
    confidenceScore := some (82/100)
    volunteerConfidenceLevel := "high"
    history := [⟨"submitted", "owner1", "2026-01-01T00:00:00Z"⟩]
    expertReview := some ⟨"Bullfrog", 82/100, "expert1"⟩ }

/-- Claim C2 as stated is false: resubmitting the approved document does
set status back to needs_review and overwrite the edited fields, but the
history log still holds exactly its one prior entry (nothing is
appended) and the expert review block is still present (reviewer fields
are not cleared). -/
theorem handleResubmit_no_history_no_clear :
    (handleResubmit approvedDoc "Wood Frog" "edited" (some 60)).map
        (fun r => (r.status, r.history.length, r.expertReview.isSome))
      = some ("needs_review", 1, true) := by
  decide

/-- Claim C2 amended: for every document and edit payload, a non-empty
confidence outside 0..100 is rejected with no write; every successful
resubmit yields status needs_review, overwrites species,
predictedSpecies and notes from the payload, stores the entered
confidence divided by 100 when one was entered and keeps the prior score
otherwise, and leaves the history log, the expert review block and the
owner unchanged: no history entry is appended and reviewer fields are
not cleared. -/
theorem handleResubmit_spec (d : RecordingDoc) (es en : String)
    (conf : Option ℤ) :
    (∀ n, conf = some n → (n < 0 ∨ n > 100) →
      handleResubmit d es en conf = none) ∧
    (∀ r, handleResubmit d es en conf = some r →
      r.status = "needs_review" ∧
      r.species = es ∧
      r.predictedSpecies = es ∧
      r.notes = en ∧
      r.history = d.history ∧
      r.expertReview = d.expertReview ∧
      r.userId = d.userId ∧
      (conf = none → r.confidenceScore = d.confidenceScore) ∧
      (∀ n, conf = some n → r.confidenceScore = some ((n : ℚ) / 100))) := by
  constructor
  · intro n hn hrange
    subst hn
    simp [handleResubmit, hrange]
  · intro r hr
    cases hconf : conf with
    | none =>
      subst hconf
      simp only [handleResubmit, Option.some.injEq] at hr
      subst hr
      simp
    | some n =>
      subst hconf
      by_cases hrange : n < 0 ∨ n > 100
      · simp [handleResubmit, hrange] at hr
      · simp only [handleResubmit, hrange, if_false, Option.some.injEq] at hr
        subst hr
        simp

/-- Witness for the amended C2 theorem: resubmitting the approved
document with confidence 60 keeps its single history entry and its
review block while resetting status. -/
theorem handleResubmit_spec_witness :
    (handleResubmit approvedDoc "Wood Frog" "edited" (some 60)).map
        (fun r => r.status) = some "needs_review" := by
  have h := (handleResubmit_spec approvedDoc "Wood Frog" "edited" (some 60)).2
  cases hr : handleResubmit approvedDoc "Wood Frog" "edited" (some 60) with
  | none => exact absurd hr (by decide)
  | some r =>
    have := (h r hr).1
    simp [this]

/-- Inversion helper for the creation path: a document created approved
can only come from the self-approve branch, so the option was on, the
role string was expert or admin, and the review names the submitter. -/
theorem submitCreate_approved_inversion (inp : SubmitInput) :
    (handleSubmitCreate inp).status = "approved" →
      inp.submitAsExpert = true ∧
      (inp.role = some "expert" ∨ inp.role = some "admin") ∧
      (handleSubmitCreate inp).expertReview.map (fun e => e.reviewerUid)
        = some inp.uid := by
  intro happ
  by_cases hcond :
      (inp.submitAsExpert
        && (inp.role == some "expert" || inp.role == some "admin")) = true
  · have hc : inp.submitAsExpert = true ∧
        (inp.role = some "expert" ∨ inp.role = some "admin") := by
      simpa [beq_iff_eq] using hcond
    refine ⟨hc.1, hc.2, ?_⟩
    simp [handleSubmitCreate, hcond]
  · exfalso
    have : (handleSubmitCreate inp).status = "needs_review" := by
      simp only [handleSubmitCreate]
      rw [if_neg (by simpa using hcond)]
    rw [this] at happ
    exact absurd happ (by decide)

/-- Claim C3: the recording document produced by the single setDoc call
of handleSubmit is created with status approved exactly when the
submit-as-expert option is on and the role string is expert or admin,
and then its synthetic review carries the submitter uid as reviewer; a
volunteer role, or the option being off, always creates the document
with status needs_review and no review block. Because the document is
written once, fully formed, it is never stored in needs_review on the
self-approve path, and in this client handleSubmitCreate is the only
code path that creates a recording document at all, hence the only one
that creates it already approved. -/
theorem handleSubmitCreate_self_approve (inp : SubmitInput) :
    (inp.submitAsExpert = true →
      (inp.role = some "expert" ∨ inp.role = some "admin") →
      (handleSubmitCreate inp).status = "approved" ∧
      (handleSubmitCreate inp).expertReview.map (fun e => e.reviewerUid)
        = some inp.uid) ∧
    ((inp.role = some "volunteer" ∨ inp.submitAsExpert = false) →
      (handleSubmitCreate inp).status = "needs_review" ∧
      (handleSubmitCreate inp).expertReview = none) ∧
    ((handleSubmitCreate inp).status = "approved" →
      inp.submitAsExpert = true ∧
      (inp.role = some "expert" ∨ inp.role = some "admin") ∧
      (handleSubmitCreate inp).expertReview.map (fun e => e.reviewerUid)
        = some inp.uid) := by
  refine ⟨?_, ?_, ?_⟩
  · intro hs hr
    have : (inp.role == some "expert" || inp.role == some "admin") = true := by
      rcases hr with h | h <;> simp [h]
    simp [handleSubmitCreate, hs, this]
  · intro h
    rcases h with h | h
    · have : (inp.role == some "expert" || inp.role == some "admin") = false := by
        simp [h]
      simp [handleSubmitCreate, this]
    · simp [handleSubmitCreate, h]
  · exact submitCreate_approved_inversion inp

/-- Witness for the C3 theorem: an expert submitting with the option on
gets an approved document reviewed by their own uid, and the same input
with the option off yields needs_review. -/
theorem handleSubmitCreate_self_approve_witness :
    (handleSubmitCreate
        ⟨"r2", "expert1", "Bullfrog", "", "high", "t0", 82/100,
          some "expert", true⟩).status = "approved" ∧
    (handleSubmitCreate
        ⟨"r2", "expert1", "Bullfrog", "", "high", "t0", 82/100,
          some "expert", true⟩).expertReview.map (fun e => e.reviewerUid)
      = some "expert1" :=
  (handleSubmitCreate_self_approve
      ⟨"r2", "expert1", "Bullfrog", "", "high", "t0", 82/100,
        some "expert", true⟩).1 rfl (Or.inl rfl)

/-- Claim C10: the map-view save-edit update writes only species, notes
and, when the entered confidence parses to a number within 0..100, the
confidence score; every other field of the document is unchanged, in
particular status (an approved or discarded recording keeps its status),
the predicted species, the history log, the review block and the owner.
By contrast the history-screen resubmit path on the same document resets
status to needs_review. -/
theorem handleSaveEdits_frame (d : RecordingDoc) (es en : String)
    (conf : Option ℚ) :
    (handleSaveEdits d es en conf).status = d.status ∧
    (handleSaveEdits d es en conf).predictedSpecies = d.predictedSpecies ∧
    (handleSaveEdits d es en conf).history = d.history ∧
    (handleSaveEdits d es en conf).expertReview = d.expertReview ∧
    (handleSaveEdits d es en conf).userId = d.userId ∧
    (handleSaveEdits d es en conf).recordingId = d.recordingId ∧
    (handleSaveEdits d es en conf).volunteerConfidenceLevel
      = d.volunteerConfidenceLevel ∧
    (handleSaveEdits d es en conf).species = es ∧
    (handleSaveEdits d es en conf).notes = en ∧
    (∀ c, conf = some c → 0 ≤ c → c ≤ 100 →
      (handleSaveEdits d es en conf).confidenceScore = some (c / 100)) ∧
    (conf = none →
      (handleSaveEdits d es en conf).confidenceScore = d.confidenceScore) ∧
    (handleResubmit d es en none).map (fun r => r.status)
      = some "needs_review" := by
  cases hconf : conf with
  | none =>
    refine ⟨rfl, rfl, rfl, rfl, rfl, rfl, rfl, rfl, rfl, ?_, ?_, rfl⟩
    · intro c hc
      exact absurd hc (by simp)
    · intro _
      rfl
  | some c =>
    by_cases hr : 0 ≤ c ∧ c ≤ 100
    · have hval : handleSaveEdits d es en (some c)
          = { d with
                species := es
                notes := en
                confidenceScore := some (c / 100) } := by
        simp [handleSaveEdits, hr]
      refine ⟨?_, ?_, ?_, ?_, ?_, ?_, ?_, ?_, ?_, ?_, ?_, rfl⟩
      any_goals rw [hval]
      · intro x hx h0 h100
        injection hx with h
        subst h
        rfl
      · intro h
        exact absurd h (by simp)
    · have hval : handleSaveEdits d es en (some c)
          = { d with species := es, notes := en } := by
        simp [handleSaveEdits, hr]
      refine ⟨?_, ?_, ?_, ?_, ?_, ?_, ?_, ?_, ?_, ?_, ?_, rfl⟩
      any_goals rw [hval]
      · intro x hx h0 h100
        injection hx with h
        subst h
        exact absurd ⟨h0, h100⟩ hr
      · intro h
        exact absurd h (by simp)

/-- Witness for the C10 theorem: editing the approved document from the
map view keeps its approved status while the resubmit path on the same
document yields needs_review. -/
theorem handleSaveEdits_frame_witness :
    (handleSaveEdits approvedDoc "Wood Frog" "edited" (some 60)).status
      = approvedDoc.status :=
  (handleSaveEdits_frame approvedDoc "Wood Frog" "edited" (some 60)).1

/-- Raw firestore document fields read by parseRecording in
DataContext.tsx, restricted to the fields the status claim touches. -/
structure RawDoc where
  status : Option String
  confidenceScore : Option ℚ
  aiConfidence : Option ℚ
  locationCity : Option String
  notes : Option String
deriving Repr, DecidableEq

/-- Projection of a recording into a synchronized view, the fields of
interest of parseRecording in DataContext.tsx lines 79-109. -/
structure ParsedRecording where
  status : String
  confidence : Option ℤ
  aiConfidence : Option ℤ
  locationCity : String
  notes : String
deriving Repr, DecidableEq

/-- Shared view projection parseRecording (DataContext.tsx lines
79-109): a missing status becomes the string pending_analysis, a falsy
locationCity becomes Unknown Location, confidence is the stored score
times 100 rounded, aiConfidence falls back to the stored score. -/
def parseRecording (d : RawDoc) : ParsedRecording :=
  { status := d.status.getD "pending_analysis"
    confidence := d.confidenceScore.map (fun c => round (c * 100))
    aiConfidence :=
      match d.aiConfidence with
      | some c => some (round (c * 100))
      | none => d.confidenceScore.map (fun c => round (c * 100))
    locationCity :=
      match d.locationCity with
      | some s => if s = "" then "Unknown Location" else s
      | none => "Unknown Location"
    notes := d.notes.getD "" }

/-- Status label used by the history screen (predictionScreen.tsx lines
1599-1610); any status outside the three lifecycle values falls into a
default Processing branch. -/
def getStatusLabel (status : String) : String :=
  if status = "approved" then "Approved"
  else if status = "needs_review" then "Pending Review"
  else if status = "discarded" then "Discarded"
  else "Processing"

/-- The three lifecycle statuses named by the specification. -/
def lifecycleStatuses : List String :=
  ["needs_review", "approved", "discarded"]

/-- Claim C5 as stated is false: a stored document with no status field
projects into the synchronized view with status pending_analysis, which
is none of the three lifecycle values, and the history screen renders it
through the default Processing label. -/
theorem parseRecording_default_status_outside :
    (parseRecording ⟨none, none, none, none, none⟩).status
      = "pending_analysis" ∧
    (parseRecording ⟨none, none, none, none, none⟩).status
      ∉ lifecycleStatuses ∧
    getStatusLabel (parseRecording ⟨none, none, none, none, none⟩).status
      = "Processing" := by
  refine ⟨rfl, ?_, rfl⟩
  decide

/-- Claim C5 amended: the projection is faithful on documents that carry
a status (a stored lifecycle status projects to itself; only a missing
status yields the out-of-set default pending_analysis), and every
recording document this client creates is in needs_review or approved,
with the approved creation carrying the submitter uid as reviewer. -/
theorem parseRecording_status_faithful (d : RawDoc) (inp : SubmitInput) :
    (∀ s, d.status = some s → (parseRecording d).status = s) ∧
    (d.status = none → (parseRecording d).status = "pending_analysis") ∧
    ((handleSubmitCreate inp).status = "needs_review" ∨
      (handleSubmitCreate inp).status = "approved") ∧
    ((handleSubmitCreate inp).status = "approved" →
      (handleSubmitCreate inp).expertReview.map (fun e => e.reviewerUid)
        = some inp.uid) := by
  refine ⟨?_, ?_, ?_, ?_⟩
  · intro s hs
    simp [parseRecording, hs]
  · intro hs
    simp [parseRecording, hs]
  · by_cases hcond :
        (inp.submitAsExpert
          && (inp.role == some "expert" || inp.role == some "admin")) = true
    · right
      simp [handleSubmitCreate, hcond]
    · left
      simp only [handleSubmitCreate]
      rw [if_neg (by simpa using hcond)]
  · intro happ
    exact (submitCreate_approved_inversion inp happ).2.2

/-- Witness for the amended C5 theorem: a stored approved status
projects to approved, and the concrete self-approved submission is
created approved with its submitter as reviewer. -/
theorem parseRecording_status_faithful_witness :
    (parseRecording ⟨some "approved", none, none, none, none⟩).status
      = "approved" :=
  (parseRecording_status_faithful
      ⟨some "approved", none, none, none, none⟩
      ⟨"r2", "expert1", "Bullfrog", "", "high", "t0", 82/100,
        some "expert", true⟩).1 "approved" rfl

/-- Component state consulted by the guards at the top of handleSubmit
(predictionScreen.tsx lines 254-275): the has-submitted flag, the
in-progress flag, the selected volunteer confidence (empty string when
unselected) and the audio uri (empty string when missing). -/
structure SubmitState where
  hasSubmitted : Bool
  submitting : Bool
  volunteerConfidence : String
  audioUri : String
deriving Repr, DecidableEq

/-- Externally observable effects of one handleSubmit run, in order: an
alert shown to the user, the audio upload call, and the recording
document write. -/
inductive SubmitEffect
  | alertShown
  | uploadCall
  | docWrite
deriving Repr, DecidableEq

/-- One run of handleSubmit over the component state, the submission
input, the upload outcome and the backend recording store
(predictionScreen.tsx lines 254-424). The guards run in source order
before any network or storage call: an already-submitted draft only
shows an alert, a run still in progress returns silently, a missing
volunteer confidence or audio uri only shows an alert. Only past all
guards does the upload happen, and only a successful upload writes the
document and sets the has-submitted flag. -/
def handleSubmit (s : SubmitState) (inp : SubmitInput) (uploadOk : Bool)
    (store : List RecordingDoc) :
    SubmitState × List RecordingDoc × List SubmitEffect :=
  if s.hasSubmitted then
    (s, store, [SubmitEffect.alertShown])
  else if s.submitting then
    (s, store, [])
  else if s.volunteerConfidence = "" then
    (s, store, [SubmitEffect.alertShown])
  else if s.audioUri = "" then
    (s, store, [SubmitEffect.alertShown])
  else if uploadOk then
    ({ s with hasSubmitted := true },
      store ++ [handleSubmitCreate inp],
      [SubmitEffect.uploadCall, SubmitEffect.docWrite,
        SubmitEffect.alertShown])
  else
    (s, store, [SubmitEffect.uploadCall, SubmitEffect.alertShown])

/-- Claim C6: once a draft has been submitted (the has-submitted flag is
set), every further handleSubmit run is rejected by the first guard:
the component state and the backend store are unchanged and the only
effect is the alert, with no upload call and no document write; and a
successful first submit does set the flag, so the guard fires on every
later attempt. -/
theorem handleSubmit_duplicate_rejected (s : SubmitState)
    (inp : SubmitInput) (uploadOk : Bool) (store : List RecordingDoc) :
    (s.hasSubmitted = true →
      handleSubmit s inp uploadOk store
        = (s, store, [SubmitEffect.alertShown])) ∧
    (s.hasSubmitted = false → s.submitting = false →
      s.volunteerConfidence ≠ "" → s.audioUri ≠ "" → uploadOk = true →
      (handleSubmit s inp uploadOk store).1.hasSubmitted = true ∧
      (handleSubmit s inp uploadOk store).2.1
        = store ++ [handleSubmitCreate inp]) := by
  constructor
  · intro h
    simp [handleSubmit, h]
  · intro h1 h2 h3 h4 h5
    simp [handleSubmit, h1, h2, h3, h4, h5]

/-- Witness for the C6 theorem: with the has-submitted flag set, a
further submit attempt leaves everything unchanged and only alerts. -/
theorem handleSubmit_duplicate_rejected_witness :
    handleSubmit ⟨true, false, "high", "file.m4a"⟩
        ⟨"r3", "u1", "Bullfrog", "", "high", "t0", 82/100, none, false⟩
        true []
      = (⟨true, false, "high", "file.m4a"⟩, [], [SubmitEffect.alertShown]) :=
  (handleSubmit_duplicate_rejected ⟨true, false, "high", "file.m4a"⟩
      ⟨"r3", "u1", "Bullfrog", "", "high", "t0", 82/100, none, false⟩
      true []).1 rfl

/-- Rounded cache key of the geocode memoizer: both coordinates rounded
to three decimal places, the toFixed(3) key of predictionScreen.tsx line
1191 modelled as rounding the coordinate times 1000 to an integer. -/
def geoKey (lat lon : ℚ) : ℤ × ℤ :=
  (round (lat * 1000), round (lon * 1000))

/-- Lookup in the geocode cache, first binding wins (a later overwrite
is modelled by consing, mirroring assignment into the record). -/
def cacheGet (k : ℤ × ℤ) : List ((ℤ × ℤ) × String) → Option String
  | [] => none
  | (k2, v) :: rest => if k = k2 then some v else cacheGet k rest

/-- Geocoder state threaded through calls: the module-level cache and
the number of external requests issued so far. -/
structure GeoState where
  cache : List ((ℤ × ℤ) × String)
  requests : ℕ
deriving Repr, DecidableEq

/-- Outcome of one external geocoder request: a parsed response (the
coalesced city, town or village field, empty when all are absent, and
the state field, empty when absent), or a network or parse failure. -/
inductive GeoOutcome
  | ok (city stateName : String)
  | fail
deriving Repr, DecidableEq

/-- Place-name string built from a successful response, mirroring
predictionScreen.tsx lines 1203-1209: a falsy city falls back to
Unknown, and a non-empty state is appended after a comma. -/
def geoResultString (city stateName : String) : String :=
  let city1 := if city = "" then "Unknown" else city
  if stateName = "" then city1 else city1 ++ ", " ++ stateName

/-- A successful geocode result string is never empty, hence never falsy
as a cache value. -/
theorem geoResultString_ne_empty (city stateName : String) :
    geoResultString city stateName ≠ "" := by
  unfold geoResultString
  by_cases hs : stateName = ""
  · by_cases hc : city = ""
    · simp [hs, hc]
    · simp [hs, hc]
  · intro hcon
    simp only [if_neg hs] at hcon
    have hd := congrArg String.data hcon
    simp only [String.data_append] at hd
    have hnil : (if city = "" then "Unknown" else city).data
        ++ (", ".data ++ stateName.data) = [] := by
      rw [List.append_assoc] at hd
      exact hd
    have h1 := (List.append_eq_nil.mp hnil).2
    have h2 := (List.append_eq_nil.mp h1).1
    simp at h2

/-- The uncached path of the memoized getCityFromCoords
(predictionScreen.tsx lines 1198-1216): a successful request stores the
result under the key and returns it; a failure returns the sentinel
Unknown Location without touching the cache. Both issue one external
request. -/
def geoFetch (st : GeoState) (k : ℤ × ℤ) (outcome : GeoOutcome) :
    GeoState × String :=
  match outcome with
  | GeoOutcome.ok city stateName =>
    let result := geoResultString city stateName
    (⟨(k, result) :: st.cache, st.requests + 1⟩, result)
  | GeoOutcome.fail =>
    (⟨st.cache, st.requests + 1⟩, "Unknown Location")

/-- The memoized geocode helper of the history and map screens
(predictionScreen.tsx lines 1189-1217): a truthy cached value for the
rounded key is returned with no external request, anything else falls
through to one external request. -/
def getCityFromCoords (st : GeoState) (lat lon : ℚ) (outcome : GeoOutcome) :
    GeoState × String :=
  let k := geoKey lat lon
  match cacheGet k st.cache with
  | some v => if v = "" then geoFetch st k outcome else (st, v)
  | none => geoFetch st k outcome

/-- Claim C7 as stated is false: two calls on the same coordinates issue
two external requests when the first one fails, precisely because a
failure is not cached (the very retry behaviour the second half of the
claim requires); at most one external request per rounded key therefore
does not hold. The failure itself does return the sentinel with the
cache untouched. -/
theorem getCityFromCoords_two_requests_same_key :
    (getCityFromCoords
        (getCityFromCoords ⟨[], 0⟩ 1 2 GeoOutcome.fail).1
        1 2 GeoOutcome.fail).1.requests = 2 ∧
    (getCityFromCoords ⟨[], 0⟩ 1 2 GeoOutcome.fail).2
      = "Unknown Location" ∧
    (getCityFromCoords ⟨[], 0⟩ 1 2 GeoOutcome.fail).1.cache = [] := by
  refine ⟨?_, ?_, ?_⟩ <;> decide

/-- Claim C7 amended: on a cache miss a failing request returns the
sentinel Unknown Location, issues one external request and writes no
cache entry, so the next call with the same key retries; a truthy cache
hit answers from the cache with no external request; and once a call for
a key has succeeded, any later coordinates rounding to the same key are
answered from the cache with no further external request and the same
place name. -/
theorem getCityFromCoords_memoization (st : GeoState)
    (lat lon lat2 lon2 : ℚ) (o : GeoOutcome) :
    (cacheGet (geoKey lat lon) st.cache = none →
      getCityFromCoords st lat lon GeoOutcome.fail
        = (⟨st.cache, st.requests + 1⟩, "Unknown Location")) ∧
    (∀ v, cacheGet (geoKey lat lon) st.cache = some v → v ≠ "" →
      getCityFromCoords st lat lon o = (st, v)) ∧
    (∀ city stateName, cacheGet (geoKey lat lon) st.cache = none →
      geoKey lat2 lon2 = geoKey lat lon →
      (getCityFromCoords
          (getCityFromCoords st lat lon (GeoOutcome.ok city stateName)).1
          lat2 lon2 o)
        = ((getCityFromCoords st lat lon (GeoOutcome.ok city stateName)).1,
           (getCityFromCoords st lat lon (GeoOutcome.ok city stateName)).2)) := by
  refine ⟨?_, ?_, ?_⟩
  · intro h
    simp [getCityFromCoords, h, geoFetch]
  · intro v hv hne
    simp [getCityFromCoords, hv, hne]
  · intro city stateName hmiss hkey
    have h1 : getCityFromCoords st lat lon (GeoOutcome.ok city stateName)
        = (⟨(geoKey lat lon, geoResultString city stateName) :: st.cache,
              st.requests + 1⟩,
           geoResultString city stateName) := by
      simp [getCityFromCoords, hmiss, geoFetch]
    rw [h1]
    simp only [getCityFromCoords, hkey]
    have hget : cacheGet (geoKey lat lon)
        ((geoKey lat lon, geoResultString city stateName) :: st.cache)
        = some (geoResultString city stateName) := by
      simp [cacheGet]
    rw [hget]
    simp [geoResultString_ne_empty city stateName]

/-- Witness for the amended C7 theorem: from an empty cache, a failing
call returns the sentinel and leaves the cache empty. -/
theorem getCityFromCoords_memoization_witness :
    getCityFromCoords ⟨[], 0⟩ 1 2 GeoOutcome.fail
      = (⟨[], 1⟩, "Unknown Location") :=
  (getCityFromCoords_memoization ⟨[], 0⟩ 1 2 1 2 GeoOutcome.fail).1 rfl

/-- A predictor response: species, primary confidence and the top-3
list. -/
structure PredictResponse where
  species : String
  confidence : ℚ
  top3 : List (String × ℚ)
deriving Repr, DecidableEq

/-- Outcome of one predictor request against one endpoint: a parsed
response, an http or network error, or the abort fired by the 15 second
timer. Every non-success outcome is caught by the loop and treated as a
failed endpoint. -/
inductive AttemptResult
  | success (p : PredictResponse)
  | httpError
  | timeout
deriving Repr, DecidableEq

/-- Whether an attempt outcome counts as a failure for the failover
loop. -/
def attemptFails : AttemptResult → Bool
  | AttemptResult.success _ => false
  | AttemptResult.httpError => true
  | AttemptResult.timeout => true

/-- Milliseconds after which the AbortController cancels a predictor
request, predictionScreen.tsx line 713: every attempt is bounded by this
timer and surfaces as a timeout failure instead of hanging. -/
def predictTimeoutMs : ℕ := 15000

/-- The http url test of predictionScreen.tsx line 62, a case
insensitive match of http or https scheme prefixes. -/
def isHttpUrl (s : String) : Bool :=
  (lowerString s).startsWith "http://"
    || (lowerString s).startsWith "https://"

/-- The two configured predictor endpoints, predictionScreen.tsx line
704. -/
def predictEndpoints (apiBase : String) : List String :=
  [apiBase ++ "/predict", apiBase ++ "/ml/predict"]

/-- The failover loop of callPredict (predictionScreen.tsx lines
708-731): endpoints are tried in order, non-http urls are skipped, the
first successful response is returned, and every caught failure moves on
to the next endpoint. -/
def callPredictLoop (oracle : String → AttemptResult) :
    List String → Option PredictResponse
  | [] => none
  | url :: rest =>
    if isHttpUrl url then
      match oracle url with
      | AttemptResult.success p => some p
      | _ => callPredictLoop oracle rest
    else
      callPredictLoop oracle rest

/-- The five species of the local mock, predictionScreen.tsx lines
740-746. -/
def mockSpeciesList : List String :=
  ["Bullfrog", "Green Frog", "American Toad", "Wood Frog",
    "Northern Spring Peeper"]

/-- The local mock prediction of predictionScreen.tsx lines 747-764,
parameterized by the two random draws: an index into the species list
and a fraction r in [0,1) giving confidence 3/4 + r/5; the top-3 list
repeats the primary entry and scales its confidence by 3/5 and 3/10 for
the two following species. -/
def mockPrediction (i : ℕ) (r : ℚ) : PredictResponse :=
  let idx := i % 5
  let species := mockSpeciesList.getD idx "Bullfrog"
  let conf := 3/4 + r * (1/5)
  { species := species
    confidence := conf
    top3 :=
      [(species, conf),
        (mockSpeciesList.getD ((idx + 1) % 5) "Bullfrog", conf * (3/5)),
        (mockSpeciesList.getD ((idx + 2) % 5) "Bullfrog", conf * (3/10))] }

/-- callPredict (predictionScreen.tsx lines 697-765): the failover loop
over the configured endpoints, falling back to the mock prediction when
every endpoint has failed; the boolean records whether the
server-unavailable alert flagging the mock was shown. The function is
total: it never propagates an endpoint error to the caller. -/
def callPredict (apiBase : String) (oracle : String → AttemptResult)
    (i : ℕ) (r : ℚ) : PredictResponse × Bool :=
  match callPredictLoop oracle (predictEndpoints apiBase) with
  | some p => (p, false)
  | none => (mockPrediction i r, true)

/-- When every url in the list is either skipped as non-http or fails,
the failover loop yields no response. -/
theorem callPredictLoop_all_fail (oracle : String → AttemptResult)
    (urls : List String)
    (h : ∀ url ∈ urls, attemptFails (oracle url) = true) :
    callPredictLoop oracle urls = none := by
  induction urls with
  | nil => rfl
  | cons u rest ih =>
    have hu := h u (by simp)
    have hrest : ∀ url ∈ rest, attemptFails (oracle url) = true :=
      fun url hm => h url (by simp [hm])
    by_cases hh : isHttpUrl u
    · cases ho : oracle u with
      | success p =>
        rw [ho] at hu
        exact absurd hu (by simp [attemptFails])
      | httpError => simp [callPredictLoop, hh, ho, ih hrest]
      | timeout => simp [callPredictLoop, hh, ho, ih hrest]
    · simp [callPredictLoop, hh, ih hrest]

/-- Claim C8: every predictor request is bounded by the 15000
millisecond abort timer and surfaces as a timeout failure rather than a
hang; when every configured endpoint fails, callPredict returns the
local mock prediction flagged by the server-unavailable alert instead of
propagating an error, the mock naming one of the five known species with
a three-entry top-3 list and confidence within [3/4, 19/20); and a
successful endpoint is returned unflagged. -/
theorem callPredict_bounded_failover (apiBase : String)
    (oracle : String → AttemptResult) (i : ℕ) (r : ℚ)
    (hr0 : 0 ≤ r) (hr1 : r < 1) :
    predictTimeoutMs = 15000 ∧
    ((∀ url, url ∈ predictEndpoints apiBase →
        attemptFails (oracle url) = true) →
      callPredict apiBase oracle i r = (mockPrediction i r, true)) ∧
    (mockPrediction i r).species ∈ mockSpeciesList ∧
    (mockPrediction i r).top3.length = 3 ∧
    3/4 ≤ (mockPrediction i r).confidence ∧
    (mockPrediction i r).confidence < 19/20 := by
  refine ⟨rfl, ?_, ?_, rfl, ?_, ?_⟩
  · intro hall
    unfold callPredict
    rw [callPredictLoop_all_fail oracle (predictEndpoints apiBase) hall]
  · simp only [mockPrediction]
    have h5 : i % 5 = 0 ∨ i % 5 = 1 ∨ i % 5 = 2 ∨ i % 5 = 3 ∨ i % 5 = 4 := by
      omega
    rcases h5 with h | h | h | h | h <;> simp [h, mockSpeciesList]
  · simp only [mockPrediction]
    linarith
  · simp only [mockPrediction]
    linarith

/-- Witness for the C8 theorem: with every endpoint timing out, the call
returns the flagged mock prediction. -/
theorem callPredict_bounded_failover_witness :
    callPredict "http://api" (fun _ => AttemptResult.timeout) 0 (1/2)
      = (mockPrediction 0 (1/2), true) :=
  (callPredict_bounded_failover "http://api"
      (fun _ => AttemptResult.timeout) 0 (1/2)
      (by norm_num) (by norm_num)).2.1 (fun _ _ => rfl)

/-- A recording as seen by the map view filter of register.tsx: the
predicted species and the capture time in epoch milliseconds (absent
when the stored timestamp could not be parsed). -/
structure MapRecording where
  predictedSpecies : String
  timestampMs : Option ℤ
deriving Repr, DecidableEq

/-- Milliseconds in one day. -/
def msPerDay : ℤ := 86400000

/-- End bound of the inclusive date range: the end date moved to
23:59:59.999 of its day (register.tsx lines 573-574); the day boundary
of setHours is modelled on the utc day grid. -/
def endOfDay (e : ℤ) : ℤ :=
  e - e % msPerDay + (msPerDay - 1)

/-- The start-date rejection test of register.tsx line 569: defined only
when both a start date and a timestamp are present. -/
def beforeStart (startD : Option ℤ) (rec : MapRecording) : Bool :=
  match startD, rec.timestampMs with
  | some s, some t => decide (t < s)
  | _, _ => false

/-- The end-date rejection test of register.tsx lines 572-577: defined
only when both an end date and a timestamp are present. -/
def afterEnd (endD : Option ℤ) (rec : MapRecording) : Bool :=
  match endD, rec.timestampMs with
  | some e, some t => decide (endOfDay e < t)
  | _, _ => false

/-- The per-recording predicate of filteredRecordings in register.tsx
lines 561-582: a non-empty species allow-set rejects species outside it,
then the date range is applied, in source order. -/
def passesFilters (sel : List String) (startD endD : Option ℤ)
    (rec : MapRecording) : Bool :=
  if 0 < sel.length ∧ rec.predictedSpecies ∉ sel then false
  else if beforeStart startD rec then false
  else if afterEnd endD rec then false
  else true

/-- The same predicate with no species criterion at all, the reference
reading of applying no species filter. -/
def passesDateOnly (startD endD : Option ℤ) (rec : MapRecording) : Bool :=
  if beforeStart startD rec then false
  else if afterEnd endD rec then false
  else true

/-- The map view collection filter of register.tsx lines 561-582. -/
def filteredRecordings (recs : List MapRecording) (sel : List String)
    (startD endD : Option ℤ) : List MapRecording :=
  recs.filter (passesFilters sel startD endD)

/-- The map view collection filtered by the date criteria alone. -/
def filteredRecordingsNoSpecies (recs : List MapRecording)
    (startD endD : Option ℤ) : List MapRecording :=
  recs.filter (passesDateOnly startD endD)

/-- Claim C9: for every collection and every date criteria, filtering
with an empty species allow-set returns exactly the result of applying
no species filter at all; the guard on the size of the set makes the
empty set match every species. -/
theorem filteredRecordings_empty_species (recs : List MapRecording)
    (startD endD : Option ℤ) :
    filteredRecordings recs [] startD endD
      = filteredRecordingsNoSpecies recs startD endD := by
  unfold filteredRecordings filteredRecordingsNoSpecies
  have hfun : passesFilters [] startD endD = passesDateOnly startD endD := by
    funext rec
    simp [passesFilters, passesDateOnly]
  rw [hfun]
